import Mathlib

/-!
Verification of the geometry-optimization engine of the chemkit repository
(`src/md/moleculegeometryoptimizer.cpp`).

The embedding models the C++ `Real` (double) as `RVal`: either a rational
value or the not-a-number marker produced by degenerate force-field energy
evaluations.  IEEE comparisons involving NaN are false, which `rlt`/`rgt`
reproduce.  3D vectors are rational triples; the random unit vector drawn by
`Vector3::Random().normalized()` in the divergence branch is modelled as an
externally supplied stream of wiggle vectors (indexed by inner-loop iteration
and atom index), with unit length stated as a hypothesis where a claim needs
it.  The force field is the external oracle the optimizer consumes: atom
count, energy, gradient and rms-gradient, all functions of a coordinate set.
-/

namespace Chemkit

/-!
Rational arithmetic is routed through `mkRat`/`num`/`den` so that every
definition evaluates inside the kernel on concrete inputs (the library marks
`Rat.add` and friends irreducible); the `q*_eq` bridge lemmas below prove the
wrappers equal to the ordinary field operations on `ℚ`. -/

def qneg (a : ℚ) : ℚ := mkRat (-a.num) a.den

def qadd (a b : ℚ) : ℚ := mkRat (a.num * b.den + b.num * a.den) (a.den * b.den)

def qmul (a b : ℚ) : ℚ := mkRat (a.num * b.num) (a.den * b.den)

def qsub (a b : ℚ) : ℚ := qadd a (qneg b)

def qabs (a : ℚ) : ℚ := if a < 0 then qneg a else a

theorem qneg_eq (a : ℚ) : qneg a = -a := by
  rw [qneg, Rat.mkRat_eq_div]
  push_cast
  rw [neg_div, Rat.num_div_den]

theorem qadd_eq (a b : ℚ) : qadd a b = a + b := by
  rw [qadd, Rat.mkRat_eq_div]
  push_cast
  conv_rhs => rw [← Rat.num_div_den a, ← Rat.num_div_den b]
  have ha : (a.den : ℚ) ≠ 0 := Nat.cast_ne_zero.mpr a.den_nz
  have hb : (b.den : ℚ) ≠ 0 := Nat.cast_ne_zero.mpr b.den_nz
  field_simp

theorem qmul_eq (a b : ℚ) : qmul a b = a * b := by
  rw [qmul, Rat.mkRat_eq_div]
  push_cast
  conv_rhs => rw [← Rat.num_div_den a, ← Rat.num_div_den b]
  have ha : (a.den : ℚ) ≠ 0 := Nat.cast_ne_zero.mpr a.den_nz
  have hb : (b.den : ℚ) ≠ 0 := Nat.cast_ne_zero.mpr b.den_nz
  field_simp

theorem qsub_eq (a b : ℚ) : qsub a b = a - b := by
  rw [qsub, qadd_eq, qneg_eq, sub_eq_add_neg]

theorem qabs_eq (a : ℚ) : qabs a = |a| := by
  rw [qabs]
  split
  · rw [qneg_eq, abs_of_neg (by assumption)]
  · rw [abs_of_nonneg (by linarith [not_lt.mp (by assumption : ¬ a < 0)])]

/-- A 3D vector over the rationals. -/
abbrev Vec3 : Type := ℚ × ℚ × ℚ

def vzero : Vec3 := (0, 0, 0)

def vadd (a b : Vec3) : Vec3 :=
  (qadd a.1 b.1, qadd a.2.1 b.2.1, qadd a.2.2 b.2.2)

def vsmul (t : ℚ) (a : Vec3) : Vec3 :=
  (qmul t a.1, qmul t a.2.1, qmul t a.2.2)

/-- Squared Euclidean norm of a vector (used to state unit length of the
random wiggle vectors without leaving the rationals). -/
def vnormSq (a : Vec3) : ℚ :=
  qadd (qmul a.1 a.1) (qadd (qmul a.2.1 a.2.1) (qmul a.2.2 a.2.2))

/-- A coordinate set: one 3D point per atom, indexed like the molecule. -/
abbrev Coords : Type := List Vec3

/-- A C++ double as the optimizer observes it: a rational value or NaN. -/
inductive RVal : Type where
  | nan : RVal
  | val : ℚ → RVal
deriving DecidableEq, Repr

/-- `isnan` from `boost::math`. -/
def RVal.isNaN : RVal → Bool
  | RVal.nan => true
  | RVal.val _ => false

/-- IEEE `<` on doubles: false whenever either side is NaN. -/
def rlt : RVal → RVal → Bool
  | RVal.val a, RVal.val b => decide (a < b)
  | _, _ => false

/-- IEEE `>` on doubles: false whenever either side is NaN. -/
def rgt : RVal → RVal → Bool
  | RVal.val a, RVal.val b => decide (a > b)
  | _, _ => false

/-- `std::abs(a - b) < t` on doubles; in the source this is only evaluated
after `a < b` has succeeded, so both sides are known non-NaN there. -/
def rabsSubLt (a b : RVal) (t : ℚ) : Bool :=
  match a, b with
  | RVal.val x, RVal.val y => decide (qabs (qsub x y) < t)
  | _, _ => false

/-- The external force-field oracle, as consumed by the optimizer:
`ForceField::atomCount()`, `energy(coords)`, `gradient(coords)` and
`rmsg(coords)`.  Its internal mathematics is out of scope (spec section 4.2);
only this capability set matters. -/
structure FF : Type where
  atomCount : ℕ
  energy : Coords → RVal
  gradient : Coords → Coords
  rmsg : Coords → ℚ

/-- The tentative move of the line search: for each atom index below the
force field's atom count, `coords[atomIndex] += -gradient[atomIndex] * step`
(`moleculegeometryoptimizer.cpp` lines 211-213).  `i` is the index of the
head of the remaining list. -/
def moveFrom (grad : Coords) (stepSize : ℚ) (n : ℕ) : ℕ → Coords → Coords
  | _, [] => []
  | i, c :: rest =>
      (if i < n then vadd c (vsmul (qneg stepSize) (grad.getD i vzero)) else c)
        :: moveFrom grad stepSize n (i + 1) rest

def moveCoords (coords grad : Coords) (stepSize : ℚ) (n : ℕ) : Coords :=
  moveFrom grad stepSize n 0 coords

/-- The divergence-recovery "wiggle": for each atom index below the atom
count, the position becomes the pre-move snapshot position plus a random unit
vector (`moleculegeometryoptimizer.cpp` lines 223-227).  `w` is the stream of
random vectors; positions at indices not reached by the loop keep their
(moved) values. -/
def wiggleFrom (snapshot : Coords) (w : ℕ → Vec3) (n : ℕ) : ℕ → Coords → Coords
  | _, [] => []
  | i, c :: rest =>
      (if i < n then vadd (snapshot.getD i vzero) (w i) else c)
        :: wiggleFrom snapshot w n (i + 1) rest

def wiggleCoords (snapshot moved : Coords) (w : ℕ → Vec3) (n : ℕ) : Coords :=
  wiggleFrom snapshot w n 0 moved

/-- The state threaded through the inner line-search loop of `step()`:
the working coordinates, the current gradient, `initialEnergy` and the
current step size. -/
structure LoopState : Type where
  coords : Coords
  grad : Coords
  initialEnergy : RVal
  stepSize : ℚ
deriving Repr

/-- One inner iteration of the line search (`moleculegeometryoptimizer.cpp`
lines 206-259).  Returns `(brk, s')`: `brk = true` means the `break` of the
improvement-converged branch fired.  `w` supplies this iteration's random
wiggle vectors. -/
def stepIter (ff : FF) (w : ℕ → Vec3) (s : LoopState) : Bool × LoopState :=
  let snapshot := s.coords
  let moved := moveCoords s.coords s.grad s.stepSize ff.atomCount
  let fE := ff.energy moved
  if fE.isNaN then
    let wiggled := wiggleCoords snapshot moved w ff.atomCount
    (false, { s with coords := wiggled, grad := ff.gradient wiggled })
  else if rlt fE s.initialEnergy && rabsSubLt fE s.initialEnergy (mkRat 1 100000) then
    (true, { s with coords := moved })
  else if rlt fE s.initialEnergy then
    let doubled := qmul s.stepSize 2
    let clamped := if doubled > 1 then 1 else doubled
    (false, { coords := moved, grad := s.grad, initialEnergy := fE,
              stepSize := clamped })
  else if rgt fE s.initialEnergy then
    (false, { s with coords := snapshot, stepSize := qmul s.stepSize (mkRat 1 10) })
  else
    (false, { s with coords := moved })

/-- The inner loop of `step()`: up to `fuel` iterations starting at iteration
index `i`, stopping early when an iteration breaks. -/
def stepLoop (ff : FF) (w : ℕ → ℕ → Vec3) : ℕ → ℕ → LoopState → LoopState
  | _, 0, s => s
  | i, fuel + 1, s =>
      let r := stepIter ff (w i) s
      if r.1 then r.2 else stepLoop ff w (i + 1) fuel r.2

/-- The loop state `step()` builds before entering its inner loop: energy and
gradient evaluated once at the current coordinates, and the fixed fresh
step size `0.05` (`moleculegeometryoptimizer.cpp` lines 196, 202-203). -/
def stepInit (ff : FF) (coords : Coords) : LoopState :=
  { coords := coords, grad := ff.gradient coords,
    initialEnergy := ff.energy coords, stepSize := mkRat 1 20 }

/-- `MoleculeGeometryOptimizer::step()` on the session's coordinate set
(guards on the session pointers live in `stepS` below): runs the 10-iteration
inner line search and then reports convergence as
`rmsg(coords) < 0.1` (lines 195-262). -/
def stepCore (ff : FF) (w : ℕ → ℕ → Vec3) (coords : Coords) : Coords × Bool :=
  let fin := stepLoop ff w 0 10 (stepInit ff coords)
  (fin.coords, decide (ff.rmsg fin.coords < mkRat 1 10))

/-- Number of inner iterations (hence tentative moves) `stepLoop` executes:
mirrors `stepLoop`, counting one per executed iteration. -/
def stepLoopCount (ff : FF) (w : ℕ → ℕ → Vec3) : ℕ → ℕ → LoopState → ℕ
  | _, 0, _ => 0
  | i, fuel + 1, s =>
      let r := stepIter ff (w i) s
      if r.1 then 1 else 1 + stepLoopCount ff w (i + 1) fuel r.2

/-- Number of tentative moves a single `step()` call performs. -/
def stepMoves (ff : FF) (w : ℕ → ℕ → Vec3) (coords : Coords) : ℕ :=
  stepLoopCount ff w 0 10 (stepInit ff coords)

/-- The external `Molecule` collaborator, reduced to what the optimizer
consumes: an ordered list of settable atom positions (`size()` is the list
length). -/
structure Molecule : Type where
  positions : List Vec3
deriving DecidableEq, Repr

/-- The force-field registry behind `ForceField::create(name)`: a name either
resolves to a factory or is unregistered.  The factory models
`create` + `setMolecule` + the force field's own `setup()`: given the
molecule it yields the bound force-field oracle together with the success
flag of that `setup()` call (the C++ object exists, and stays bound to the
session, even when its setup failed). -/
structure Registry : Type where
  create : String → Option (Molecule → FF × Bool)

/-- `MoleculeGeometryOptimizerPrivate`: the session state behind the
optimizer (molecule pointer, owned force-field pointer, force-field name,
last error string, working coordinate set). -/
structure Session : Type where
  molecule : Option Molecule
  forceField : Option FF
  forceFieldName : String
  errorString : String
  coordinates : Coords

/-- The constructor: binds the molecule, null force field, default name
"uff", empty error string and empty coordinate set. -/
def mkSession (m : Option Molecule) : Session :=
  { molecule := m, forceField := none, forceFieldName := "uff",
    errorString := "", coordinates := [] }

/-- `MoleculeGeometryOptimizer::setForceField`: records the name and returns
true unconditionally (lines 132-137). -/
def setForceField (s : Session) (name : String) : Session × Bool :=
  ({ s with forceFieldName := name }, true)

/-- `MoleculeGeometryOptimizer::energy`: zero when no force field is bound,
otherwise the force field's energy at the session coordinates
(lines 148-155). -/
def energy (s : Session) : RVal :=
  match s.forceField with
  | none => RVal.val 0
  | some ff => ff.energy s.coordinates

/-- Error message of `setup()` when no molecule is bound. -/
def noMoleculeMsg : String := "No molecule specified"

/-- Error message of `setup()` for an unregistered force-field name.  The
source wraps the name in single quotes; the quotes are dropped here, which
preserves every property the claims state (non-emptiness in particular). -/
def unsupportedMsg (name : String) : String :=
  "Force field " ++ name ++ " is not supported."

/-- Error message of `setup()` when the force field's own setup fails. -/
def ffSetupFailedMsg : String := "Failed to setup force field."

/-- `MoleculeGeometryOptimizer::setup` (lines 159-184). -/
def setup (reg : Registry) (s : Session) : Session × Bool :=
  match s.molecule with
  | none => ({ s with errorString := noMoleculeMsg }, false)
  | some m =>
    match reg.create s.forceFieldName with
    | none =>
        ({ s with forceField := none,
                  errorString := unsupportedMsg s.forceFieldName }, false)
    | some make =>
        let created := make m
        if created.2 then
          ({ s with forceField := some created.1, coordinates := m.positions },
           true)
        else
          ({ s with forceField := some created.1,
                    errorString := ffSetupFailedMsg }, false)

/-- `MoleculeGeometryOptimizer::step` at the session level: returns false
without touching anything when no molecule or no force field is bound
(lines 191-193), otherwise runs the line search on the session coordinates. -/
def step (s : Session) (w : ℕ → ℕ → Vec3) : Session × Bool :=
  match s.molecule, s.forceField with
  | some _, some ff =>
      let r := stepCore ff w s.coordinates
      ({ s with coordinates := r.1 }, r.2)
  | _, _ => (s, false)

/-- `MoleculeGeometryOptimizer::writeCoordinates` (lines 285-294): copies the
session coordinates onto the molecule's atoms, one position per atom index up
to the molecule's size; a no-op when no molecule or no force field is
bound. -/
def writeback (coords : Coords) (n : ℕ) : Molecule :=
  { positions := (List.range n).map (fun i => coords.getD i vzero) }

def writeCoordinates (s : Session) : Session :=
  match s.molecule, s.forceField with
  | some m, some _ =>
      { s with molecule := some (writeback s.coordinates m.positions.length) }
  | _, _ => s

/-- The `while(!done) done = step();` loop of `optimize()` (lines 273-276),
with explicit fuel standing for the unbounded iteration: `none` means the
fuel ran out (the C++ loop would still be running).  `k` indexes the outer
step call so each call draws fresh wiggle randomness `W k`. -/
def optimizeLoop (W : ℕ → ℕ → ℕ → Vec3) : ℕ → ℕ → Session → Option Session
  | _, 0, _ => none
  | k, fuel + 1, s =>
      let r := step s (W k)
      if r.2 then some r.1 else optimizeLoop W (k + 1) fuel r.1

/-- `MoleculeGeometryOptimizer::optimize` (lines 267-282): setup, loop on
`step()` until it reports convergence, then write the coordinates back.
`none` means the stepping loop had not yet converged within `fuel` calls. -/
def optimize (reg : Registry) (W : ℕ → ℕ → ℕ → Vec3) (fuel : ℕ)
    (s : Session) : Option (Session × Bool) :=
  if (setup reg s).2 then
    match optimizeLoop W 0 fuel (setup reg s).1 with
    | none => none
    | some s₂ => some (writeCoordinates s₂, true)
  else
    some ((setup reg s).1, false)

/-! ### Bridge lemmas for the numeric literals of the optimizer -/

theorem mkRat_tenth : (mkRat 1 10 : ℚ) = 1 / 10 := by
  rw [Rat.mkRat_eq_div]; norm_num

theorem mkRat_twentieth : (mkRat 1 20 : ℚ) = 1 / 20 := by
  rw [Rat.mkRat_eq_div]; norm_num

theorem mkRat_tol : (mkRat 1 100000 : ℚ) = 1 / 100000 := by
  rw [Rat.mkRat_eq_div]; norm_num

/-! ### Elementary list lemmas for the coordinate loops -/

theorem moveFrom_length (grad : Coords) (stepSize : ℚ) (n : ℕ) :
    ∀ (i : ℕ) (l : Coords), (moveFrom grad stepSize n i l).length = l.length := by
  intro i l
  induction l generalizing i with
  | nil => rfl
  | cons c rest ih => simp [moveFrom, ih]

theorem wiggleFrom_length (snapshot : Coords) (w : ℕ → Vec3) (n : ℕ) :
    ∀ (i : ℕ) (l : Coords), (wiggleFrom snapshot w n i l).length = l.length := by
  intro i l
  induction l generalizing i with
  | nil => rfl
  | cons c rest ih => simp [wiggleFrom, ih]

theorem wiggleFrom_getD (snapshot : Coords) (w : ℕ → Vec3) (n : ℕ) :
    ∀ (l : Coords) (i j : ℕ), j < l.length →
      (wiggleFrom snapshot w n i l).getD j vzero =
        if i + j < n then vadd (snapshot.getD (i + j) vzero) (w (i + j))
        else l.getD j vzero := by
  intro l
  induction l with
  | nil => intro i j hj; simp at hj
  | cons c rest ih =>
      intro i j hj
      cases j with
      | zero => simp [wiggleFrom]
      | succ j =>
          have hj' : j < rest.length := by simpa using hj
          have := ih (i + 1) j hj'
          simp only [wiggleFrom, List.getD_cons_succ]
          rw [this]
          have harith : i + 1 + j = i + (j + 1) := by omega
          rw [harith]

theorem range_map_getD {α : Type} (d : α) :
    ∀ (l : List α), (List.range l.length).map (fun i => l.getD i d) = l := by
  intro l
  induction l with
  | nil => rfl
  | cons a t ih =>
      simp only [List.length_cons, List.range_succ_eq_map, List.map_cons,
        List.map_map]
      rw [List.cons_eq_cons]
      refine ⟨rfl, ?_⟩
      have hfun : ((fun i => (a :: t).getD i d) ∘ Nat.succ) =
          (fun i => t.getD i d) := by
        funext i; rfl
      rw [hfun, ih]

/-! ### Branch characterizations of a single inner line-search iteration -/

theorem stepIter_nan (ff : FF) (w : ℕ → Vec3) (s : LoopState)
    (h : ff.energy (moveCoords s.coords s.grad s.stepSize ff.atomCount) = RVal.nan) :
    stepIter ff w s =
      (false,
       { s with
         coords := wiggleCoords s.coords
           (moveCoords s.coords s.grad s.stepSize ff.atomCount) w ff.atomCount,
         grad := ff.gradient (wiggleCoords s.coords
           (moveCoords s.coords s.grad s.stepSize ff.atomCount) w ff.atomCount) }) := by
  simp only [stepIter, h, RVal.isNaN, if_true]

theorem stepIter_break (ff : FF) (w : ℕ → Vec3) (s : LoopState) (e0 e1 : ℚ)
    (h0 : s.initialEnergy = RVal.val e0)
    (h1 : ff.energy (moveCoords s.coords s.grad s.stepSize ff.atomCount) = RVal.val e1)
    (hlt : e1 < e0) (htol : |e1 - e0| < 1 / 100000) :
    stepIter ff w s =
      (true, { s with coords := moveCoords s.coords s.grad s.stepSize ff.atomCount }) := by
  have hcond : (rlt (RVal.val e1) (RVal.val e0) &&
      rabsSubLt (RVal.val e1) (RVal.val e0) (mkRat 1 100000)) = true := by
    simp only [rlt, rabsSubLt, qabs_eq, qsub_eq, mkRat_tol, Bool.and_eq_true,
      decide_eq_true_eq]
    exact ⟨hlt, htol⟩
  simp only [stepIter, h0, h1, RVal.isNaN, hcond, Bool.false_eq_true,
    if_false, if_true]

theorem stepIter_improve (ff : FF) (w : ℕ → Vec3) (s : LoopState) (e0 e1 : ℚ)
    (h0 : s.initialEnergy = RVal.val e0)
    (h1 : ff.energy (moveCoords s.coords s.grad s.stepSize ff.atomCount) = RVal.val e1)
    (hlt : e1 < e0) (htol : ¬ (|e1 - e0| < 1 / 100000)) :
    stepIter ff w s =
      (false,
       { coords := moveCoords s.coords s.grad s.stepSize ff.atomCount,
         grad := s.grad, initialEnergy := RVal.val e1,
         stepSize := if 1 < s.stepSize * 2 then 1 else s.stepSize * 2 }) := by
  have h2 : rabsSubLt (RVal.val e1) (RVal.val e0) (mkRat 1 100000) = false := by
    simp only [rabsSubLt, qabs_eq, qsub_eq, mkRat_tol, decide_eq_false_iff_not]
    exact htol
  have hl : rlt (RVal.val e1) (RVal.val e0) = true := by
    simp only [rlt, decide_eq_true_eq]; exact hlt
  simp only [stepIter, h0, h1, RVal.isNaN, h2, hl, Bool.true_and,
    Bool.and_false, Bool.false_eq_true, if_false, if_true, qmul_eq, gt_iff_lt]

theorem stepIter_reject (ff : FF) (w : ℕ → Vec3) (s : LoopState) (e0 e1 : ℚ)
    (h0 : s.initialEnergy = RVal.val e0)
    (h1 : ff.energy (moveCoords s.coords s.grad s.stepSize ff.atomCount) = RVal.val e1)
    (hgt : e0 < e1) :
    stepIter ff w s = (false, { s with stepSize := s.stepSize * (1 / 10) }) := by
  have hnlt : ¬ (e1 < e0) := by linarith
  have hl : rlt (RVal.val e1) (RVal.val e0) = false := by
    simp only [rlt, decide_eq_false_iff_not]; exact hnlt
  have hg : rgt (RVal.val e1) (RVal.val e0) = true := by
    simp only [rgt, gt_iff_lt, decide_eq_true_eq]; exact hgt
  simp only [stepIter, h0, h1, RVal.isNaN, hl, hg, Bool.false_and,
    Bool.false_eq_true, if_false, if_true, qmul_eq, mkRat_tenth]

theorem stepIter_flat (ff : FF) (w : ℕ → Vec3) (s : LoopState) (e0 : ℚ)
    (h0 : s.initialEnergy = RVal.val e0)
    (h1 : ff.energy (moveCoords s.coords s.grad s.stepSize ff.atomCount) = RVal.val e0) :
    stepIter ff w s =
      (false, { s with coords := moveCoords s.coords s.grad s.stepSize ff.atomCount }) := by
  have hl : rlt (RVal.val e0) (RVal.val e0) = false := by
    simp only [rlt, decide_eq_false_iff_not]; exact lt_irrefl e0
  have hg : rgt (RVal.val e0) (RVal.val e0) = false := by
    simp only [rgt, gt_iff_lt, decide_eq_false_iff_not]; exact lt_irrefl e0
  simp only [stepIter, h0, h1, RVal.isNaN, hl, hg, Bool.false_and,
    Bool.false_eq_true, if_false]

/-! ### Session-level lemmas: what `setup`, `step` and the optimize loop
preserve -/

theorem step_preserves (s : Session) (w : ℕ → ℕ → Vec3) :
    (step s w).1.molecule = s.molecule ∧
    (step s w).1.forceField = s.forceField ∧
    (step s w).1.forceFieldName = s.forceFieldName := by
  unfold step
  rcases hm : s.molecule <;> rcases hf : s.forceField <;> simp [hm, hf]

theorem step_true (s s₀ : Session) (w : ℕ → ℕ → Vec3)
    (h : step s w = (s₀, true)) :
    ∃ m ff, s.molecule = some m ∧ s.forceField = some ff ∧
      s₀ = { s with coordinates := (stepCore ff w s.coordinates).1 } ∧
      ff.rmsg s₀.coordinates < 1 / 10 := by
  unfold step at h
  rcases hm : s.molecule with _ | m <;> rcases hf : s.forceField with _ | ff <;>
    rw [hm, hf] at h <;> simp at h
  refine ⟨m, ff, rfl, rfl, ?_, ?_⟩
  · rw [← h.1]
  · have hb := h.2
    rw [← h.1] at *
    simp only [stepCore, decide_eq_true_eq, mkRat_tenth] at hb
    simpa [stepCore, ← h.1] using hb

theorem optimizeLoop_preserves (W : ℕ → ℕ → ℕ → Vec3) :
    ∀ (fuel k : ℕ) (s s' : Session), optimizeLoop W k fuel s = some s' →
      s'.molecule = s.molecule ∧ s'.forceField = s.forceField ∧
      s'.forceFieldName = s.forceFieldName := by
  intro fuel
  induction fuel with
  | zero => intro k s s' h; simp [optimizeLoop] at h
  | succ n ih =>
      intro k s s' h
      unfold optimizeLoop at h
      rcases hstep : step s (W k) with ⟨s₀, b⟩
      rw [hstep] at h
      have hpres := step_preserves s (W k)
      rw [hstep] at hpres
      cases b with
      | true =>
          simp at h
          rw [← h]
          exact hpres
      | false =>
          simp at h
          have := ih (k + 1) s₀ s' h
          exact ⟨by rw [this.1, hpres.1], by rw [this.2.1, hpres.2.1],
            by rw [this.2.2, hpres.2.2]⟩

theorem optimizeLoop_rmsg (W : ℕ → ℕ → ℕ → Vec3) :
    ∀ (fuel k : ℕ) (s s' : Session), optimizeLoop W k fuel s = some s' →
      ∃ m ff, s'.molecule = some m ∧ s'.forceField = some ff ∧
        ff.rmsg s'.coordinates < 1 / 10 := by
  intro fuel
  induction fuel with
  | zero => intro k s s' h; simp [optimizeLoop] at h
  | succ n ih =>
      intro k s s' h
      unfold optimizeLoop at h
      rcases hstep : step s (W k) with ⟨s₀, b⟩
      rw [hstep] at h
      cases b with
      | true =>
          simp at h
          obtain ⟨m, ff, hm, hf, hs, hr⟩ := step_true s s₀ (W k) hstep
          subst h
          refine ⟨m, ff, ?_, ?_, hr⟩
          · rw [hs]; exact hm
          · rw [hs]; exact hf
      | false =>
          simp at h
          exact ih (k + 1) s₀ s' h

theorem setup_no_molecule (reg : Registry) (s : Session) (h : s.molecule = none) :
    setup reg s = ({ s with errorString := noMoleculeMsg }, false) := by
  simp [setup, h]

theorem setup_unregistered (reg : Registry) (s : Session) (m : Molecule)
    (hm : s.molecule = some m) (hc : reg.create s.forceFieldName = none) :
    setup reg s =
      ({ s with forceField := none,
                errorString := unsupportedMsg s.forceFieldName }, false) := by
  simp [setup, hm, hc]

theorem setup_ff_failed (reg : Registry) (s : Session) (m : Molecule)
    (make : Molecule → FF × Bool)
    (hm : s.molecule = some m) (hc : reg.create s.forceFieldName = some make)
    (hfail : (make m).2 = false) :
    setup reg s =
      ({ s with forceField := some (make m).1,
                errorString := ffSetupFailedMsg }, false) := by
  simp [setup, hm, hc, hfail]

theorem setup_success (reg : Registry) (s : Session) (m : Molecule)
    (make : Molecule → FF × Bool)
    (hm : s.molecule = some m) (hc : reg.create s.forceFieldName = some make)
    (hok : (make m).2 = true) :
    setup reg s =
      ({ s with forceField := some (make m).1, coordinates := m.positions },
       true) := by
  simp [setup, hm, hc, hok]

theorem setup_preserves (reg : Registry) (s : Session) :
    (setup reg s).1.molecule = s.molecule ∧
    (setup reg s).1.forceFieldName = s.forceFieldName := by
  rcases hm : s.molecule with _ | m
  · rw [setup_no_molecule reg s hm]
    exact ⟨by simp [hm], rfl⟩
  · rcases hc : reg.create s.forceFieldName with _ | make
    · rw [setup_unregistered reg s m hm hc]
      exact ⟨by simp [hm], rfl⟩
    · rcases hok : (make m).2 with _ | _
      · rw [setup_ff_failed reg s m make hm hc hok]
        exact ⟨by simp [hm], rfl⟩
      · rw [setup_success reg s m make hm hc hok]
        exact ⟨by simp [hm], rfl⟩

theorem setup_ok_cases (reg : Registry) (s : Session)
    (h : (setup reg s).2 = true) :
    ∃ m make, s.molecule = some m ∧ reg.create s.forceFieldName = some make ∧
      (make m).2 = true ∧
      (setup reg s).1 =
        { s with forceField := some (make m).1, coordinates := m.positions } := by
  rcases hm : s.molecule with _ | m
  · rw [setup_no_molecule reg s hm] at h; simp at h
  · rcases hc : reg.create s.forceFieldName with _ | make
    · rw [setup_unregistered reg s m hm hc] at h; simp at h
    · rcases hok : (make m).2 with _ | _
      · rw [setup_ff_failed reg s m make hm hc hok] at h; simp at h
      · refine ⟨m, make, by simp [hm], by simp [hc], by simp [hok], ?_⟩
        rw [setup_success reg s m make hm hc hok]
        simp [hm]

theorem writeCoordinates_spec (s : Session) (m : Molecule) (ff : FF)
    (hm : s.molecule = some m) (hf : s.forceField = some ff) :
    writeCoordinates s =
      { s with molecule := some (writeback s.coordinates m.positions.length) } := by
  simp [writeCoordinates, hm, hf]

theorem writeCoordinates_frame (s : Session) :
    (writeCoordinates s).coordinates = s.coordinates ∧
    (writeCoordinates s).forceField = s.forceField := by
  unfold writeCoordinates
  rcases hm : s.molecule <;> rcases hf : s.forceField <;> simp [hm, hf]

theorem optimize_of_setup_false (reg : Registry) (W : ℕ → ℕ → ℕ → Vec3)
    (fuel : ℕ) (s : Session) (h : (setup reg s).2 = false) :
    optimize reg W fuel s = some ((setup reg s).1, false) := by
  simp [optimize, h]

theorem optimize_true_elim (reg : Registry) (W : ℕ → ℕ → ℕ → Vec3)
    (fuel : ℕ) (s s₁ : Session)
    (h : optimize reg W fuel s = some (s₁, true)) :
    (setup reg s).2 = true ∧
    ∃ s₂, optimizeLoop W 0 fuel (setup reg s).1 = some s₂ ∧
      s₁ = writeCoordinates s₂ := by
  unfold optimize at h
  rcases hok : (setup reg s).2 with _ | _
  · rw [hok] at h
    simp at h
  · rw [hok] at h
    simp only [if_true] at h
    rcases hloop : optimizeLoop W 0 fuel (setup reg s).1 with _ | s₂
    · rw [hloop] at h; simp at h
    · rw [hloop] at h
      simp at h
      exact ⟨rfl, s₂, rfl, h.symm⟩

theorem stepLoopCount_le (ff : FF) (w : ℕ → ℕ → Vec3) :
    ∀ (fuel i : ℕ) (s : LoopState), stepLoopCount ff w i fuel s ≤ fuel := by
  intro fuel
  induction fuel with
  | zero => intro i s; simp [stepLoopCount]
  | succ n ih =>
      intro i s
      unfold stepLoopCount
      rcases stepIter ff (w i) s with ⟨b, s'⟩
      cases b with
      | true => simp
      | false =>
          simp only [Bool.false_eq_true, if_false]
          have := ih (i + 1) s'
          omega

theorem vsmul_vzero (t : ℚ) : vsmul t vzero = vzero := by
  simp [vsmul, vzero, qmul_eq]

theorem vadd_vzero (c : Vec3) : vadd c vzero = c := by
  simp [vadd, vzero, qadd_eq]

theorem moveFrom_zero (g : Coords) (st : ℚ) (n : ℕ)
    (hg : ∀ j, g.getD j vzero = vzero) :
    ∀ (i : ℕ) (l : Coords), moveFrom g st n i l = l := by
  intro i l
  induction l generalizing i with
  | nil => rfl
  | cons c rest ih =>
      simp only [moveFrom, hg, vsmul_vzero, vadd_vzero, if_pos, ite_self]
      rw [ih]

/-- With a zero gradient and a non-NaN energy at the current coordinates, the
inner line search is a no-op: every tentative move is zero, the final and
initial energies coincide, and the loop state never changes. -/
theorem stepLoop_flat (ff : FF) (w : ℕ → ℕ → Vec3) (c : Coords) (g : Coords)
    (e : ℚ) (hg : ∀ j, g.getD j vzero = vzero) (he : ff.energy c = RVal.val e) :
    ∀ (fuel i : ℕ) (st : ℚ),
      stepLoop ff w i fuel ⟨c, g, RVal.val e, st⟩ = ⟨c, g, RVal.val e, st⟩ := by
  intro fuel
  induction fuel with
  | zero => intro i st; rfl
  | succ n ih =>
      intro i st
      have hmove : moveCoords c g st ff.atomCount = c :=
        moveFrom_zero g st ff.atomCount hg 0 c
      have hiter := stepIter_flat ff (w i) ⟨c, g, RVal.val e, st⟩ e rfl
        (by rw [hmove]; exact he)
      unfold stepLoop
      rw [hiter]
      simp only [Bool.false_eq_true, if_false, hmove]
      exact ih (i + 1) st

/-! ### Concrete instances used by the witnesses -/

/-- A deterministic stand-in for the random wiggle stream: always the unit
vector along x. -/
def wOne : ℕ → Vec3 := fun _ => (1, 0, 0)

def WOne : ℕ → ℕ → ℕ → Vec3 := fun _ _ _ => (1, 0, 0)

/-- One atom, identically zero energy, zero gradient, zero rms gradient. -/
def ffZero : FF :=
  { atomCount := 1, energy := fun _ => RVal.val 0,
    gradient := fun _ => [vzero], rmsg := fun _ => 0 }

/-- One atom, energy always NaN. -/
def ffNaN : FF :=
  { atomCount := 1, energy := fun _ => RVal.nan,
    gradient := fun _ => [vzero], rmsg := fun _ => 0 }

/-- One atom, energy = x-coordinate of the atom (decreases along the moves
the optimizer makes for the constant gradient (1,0,0)). -/
def ffDown : FF :=
  { atomCount := 1, energy := fun c => RVal.val (c.getD 0 vzero).1,
    gradient := fun _ => [(1, 0, 0)], rmsg := fun _ => 1 }

/-- One atom, energy = minus the x-coordinate (increases along the moves the
optimizer makes for the constant gradient (1,0,0)). -/
def ffUp : FF :=
  { atomCount := 1, energy := fun c => RVal.val (qneg (c.getD 0 vzero).1),
    gradient := fun _ => [(1, 0, 0)], rmsg := fun _ => 1 }

/-- One atom, energy = x-coordinate, constant gradient of magnitude 0.09 and
rms gradient 0.09 (below the 0.1 threshold, but nonzero). -/
def ffDrift : FF :=
  { atomCount := 1, energy := fun c => RVal.val (c.getD 0 vzero).1,
    gradient := fun _ => [(mkRat 9 100, 0, 0)], rmsg := fun _ => mkRat 9 100 }

def regOf (ff : FF) : Registry :=
  { create := fun n => if n = "uff" then some (fun _ => (ff, true)) else none }

/-- A registry with no force fields registered at all. -/
def regEmpty : Registry := { create := fun _ => none }

/-- A registry whose only force field fails its own setup. -/
def regFail : Registry :=
  { create := fun n => if n = "uff" then some (fun _ => (ffZero, false)) else none }

def molZero : Molecule := { positions := [(0, 0, 0)] }

/-- The line-search state used by the single-iteration witnesses: one atom at
the origin, gradient (1,0,0), initial energy 0, step size 0.05. -/
def sUnit : LoopState :=
  { coords := [(0, 0, 0)], grad := [(1, 0, 0)],
    initialEnergy := RVal.val 0, stepSize := mkRat 1 20 }

/-- The session after optimizing `molZero` with `ffZero`: force field bound,
coordinates (and molecule) unchanged at the origin. -/
def sDone : Session :=
  { molecule := some molZero, forceField := some ffZero,
    forceFieldName := "uff", errorString := "", coordinates := [(0, 0, 0)] }

/-! ### The claims -/

/-- Claim C2: within a single inner iteration of `step()`, if the energy
evaluated after the tentative move is NaN, then every atom's position becomes
its pre-move snapshot position plus one unit-length vector, the gradient is
recomputed at the perturbed configuration, and the iteration continues (no
break) with step size and `initialEnergy` unchanged; no error is surfaced —
the iteration result is an ordinary continue state. -/
theorem claim_C2 (ff : FF) (w : ℕ → Vec3) (s : LoopState)
    (hnan : ff.energy (moveCoords s.coords s.grad s.stepSize ff.atomCount) = RVal.nan)
    (hunit : ∀ j, vnormSq (w j) = 1) :
    (stepIter ff w s).1 = false ∧
    (∀ j, j < ff.atomCount → j < s.coords.length →
       (stepIter ff w s).2.coords.getD j vzero =
         vadd (s.coords.getD j vzero) (w j) ∧ vnormSq (w j) = 1) ∧
    (stepIter ff w s).2.grad = ff.gradient (stepIter ff w s).2.coords ∧
    (stepIter ff w s).2.stepSize = s.stepSize ∧
    (stepIter ff w s).2.initialEnergy = s.initialEnergy := by
  rw [stepIter_nan ff w s hnan]
  refine ⟨rfl, ?_, rfl, rfl, rfl⟩
  intro j hj hlen
  have hmlen : (moveCoords s.coords s.grad s.stepSize ff.atomCount).length =
      s.coords.length := moveFrom_length s.grad s.stepSize ff.atomCount 0 s.coords
  have := wiggleFrom_getD s.coords w ff.atomCount
    (moveCoords s.coords s.grad s.stepSize ff.atomCount) 0 j (by rw [hmlen]; exact hlen)
  simp only [wiggleCoords, Nat.zero_add] at this ⊢
  rw [this, if_pos hj]
  exact ⟨rfl, hunit j⟩

theorem claim_C2_witness :
    (stepIter ffNaN wOne sUnit).1 = false ∧
    (∀ j, j < ffNaN.atomCount → j < sUnit.coords.length →
       (stepIter ffNaN wOne sUnit).2.coords.getD j vzero =
         vadd (sUnit.coords.getD j vzero) (wOne j) ∧ vnormSq (wOne j) = 1) ∧
    (stepIter ffNaN wOne sUnit).2.grad =
      ffNaN.gradient (stepIter ffNaN wOne sUnit).2.coords ∧
    (stepIter ffNaN wOne sUnit).2.stepSize = sUnit.stepSize ∧
    (stepIter ffNaN wOne sUnit).2.initialEnergy = sUnit.initialEnergy :=
  claim_C2 ffNaN wOne sUnit rfl (fun _ => by simp only [wOne]; decide)

/-- Claim C3: within a single inner iteration of `step()`, if the move lowers
the energy, then: when the drop is at least the tolerance 1e-5, the step size
is doubled and clamped to at most 1, `initialEnergy` becomes the new energy,
the moved coordinates are kept and the gradient is not recomputed; when the
drop is below the tolerance the inner loop breaks. -/
theorem claim_C3 (ff : FF) (w : ℕ → Vec3) (s : LoopState) (e0 e1 : ℚ)
    (h0 : s.initialEnergy = RVal.val e0)
    (h1 : ff.energy (moveCoords s.coords s.grad s.stepSize ff.atomCount) = RVal.val e1)
    (hlt : e1 < e0) :
    (1 / 100000 ≤ |e1 - e0| →
       (stepIter ff w s).1 = false ∧
       (stepIter ff w s).2.coords = moveCoords s.coords s.grad s.stepSize ff.atomCount ∧
       (stepIter ff w s).2.initialEnergy = RVal.val e1 ∧
       (stepIter ff w s).2.grad = s.grad ∧
       (stepIter ff w s).2.stepSize ≤ 1 ∧
       (s.stepSize * 2 ≤ 1 → (stepIter ff w s).2.stepSize = s.stepSize * 2) ∧
       (1 < s.stepSize * 2 → (stepIter ff w s).2.stepSize = 1)) ∧
    (|e1 - e0| < 1 / 100000 →
       (stepIter ff w s).1 = true ∧
       (stepIter ff w s).2.coords =
         moveCoords s.coords s.grad s.stepSize ff.atomCount) := by
  constructor
  · intro htol
    rw [stepIter_improve ff w s e0 e1 h0 h1 hlt (by linarith)]
    refine ⟨rfl, rfl, rfl, rfl, ?_, ?_, ?_⟩
    · by_cases hc : 1 < s.stepSize * 2
      · simp [hc]
      · simp only [if_neg hc]; linarith [not_lt.mp hc]
    · intro hle
      rw [if_neg (by linarith)]
    · intro hgt
      rw [if_pos hgt]
  · intro htol
    rw [stepIter_break ff w s e0 e1 h0 h1 hlt htol]
    exact ⟨rfl, rfl⟩

theorem claim_C3_witness :
    (1 / 100000 ≤ |mkRat (-1) 20 - 0| →
       (stepIter ffDown wOne sUnit).1 = false ∧
       (stepIter ffDown wOne sUnit).2.coords =
         moveCoords sUnit.coords sUnit.grad sUnit.stepSize ffDown.atomCount ∧
       (stepIter ffDown wOne sUnit).2.initialEnergy = RVal.val (mkRat (-1) 20) ∧
       (stepIter ffDown wOne sUnit).2.grad = sUnit.grad ∧
       (stepIter ffDown wOne sUnit).2.stepSize ≤ 1 ∧
       (sUnit.stepSize * 2 ≤ 1 →
          (stepIter ffDown wOne sUnit).2.stepSize = sUnit.stepSize * 2) ∧
       (1 < sUnit.stepSize * 2 → (stepIter ffDown wOne sUnit).2.stepSize = 1)) ∧
    (|mkRat (-1) 20 - 0| < 1 / 100000 →
       (stepIter ffDown wOne sUnit).1 = true ∧
       (stepIter ffDown wOne sUnit).2.coords =
         moveCoords sUnit.coords sUnit.grad sUnit.stepSize ffDown.atomCount) :=
  claim_C3 ffDown wOne sUnit 0 (mkRat (-1) 20) rfl (by decide)
    (by rw [show (mkRat (-1) 20 : ℚ) = -(1 / 20) by rw [Rat.mkRat_eq_div]; norm_num]
        norm_num)

/-- Claim C4: within a single inner iteration of `step()`, if the move raises
the energy, the coordinates are restored exactly to the pre-move snapshot,
the step size is multiplied by 0.1, `initialEnergy` is unchanged, and the
shrunken step stays strictly positive while strictly decreasing — no lower
floor is enforced, so repeated rejections shrink it geometrically towards
zero. -/
theorem claim_C4 (ff : FF) (w : ℕ → Vec3) (s : LoopState) (e0 e1 : ℚ)
    (h0 : s.initialEnergy = RVal.val e0)
    (h1 : ff.energy (moveCoords s.coords s.grad s.stepSize ff.atomCount) = RVal.val e1)
    (hgt : e0 < e1) :
    (stepIter ff w s).1 = false ∧
    (stepIter ff w s).2.coords = s.coords ∧
    (stepIter ff w s).2.stepSize = s.stepSize * (1 / 10) ∧
    (stepIter ff w s).2.initialEnergy = s.initialEnergy ∧
    (stepIter ff w s).2.grad = s.grad ∧
    (0 < s.stepSize →
       0 < (stepIter ff w s).2.stepSize ∧
       (stepIter ff w s).2.stepSize < s.stepSize) := by
  rw [stepIter_reject ff w s e0 e1 h0 h1 hgt]
  refine ⟨rfl, rfl, rfl, rfl, rfl, ?_⟩
  intro hpos
  constructor <;> [positivity; linarith]

theorem claim_C4_witness :
    (stepIter ffUp wOne sUnit).1 = false ∧
    (stepIter ffUp wOne sUnit).2.coords = sUnit.coords ∧
    (stepIter ffUp wOne sUnit).2.stepSize = sUnit.stepSize * (1 / 10) ∧
    (stepIter ffUp wOne sUnit).2.initialEnergy = sUnit.initialEnergy ∧
    (stepIter ffUp wOne sUnit).2.grad = sUnit.grad ∧
    (0 < sUnit.stepSize →
       0 < (stepIter ffUp wOne sUnit).2.stepSize ∧
       (stepIter ffUp wOne sUnit).2.stepSize < sUnit.stepSize) :=
  claim_C4 ffUp wOne sUnit 0 (mkRat 1 20) rfl (by decide) (by decide)

/-- Claim C5: every `step()` call starts its inner line search from the fixed
default step size 0.05 — the initial loop state is a function of the current
coordinates only, so nothing persists between calls — and executes at most 10
inner iterations, hence at most 10 tentative moves, for every oracle. -/
theorem claim_C5 (ff : FF) (w : ℕ → ℕ → Vec3) (coords : Coords) :
    stepMoves ff w coords ≤ 10 ∧ (stepInit ff coords).stepSize = 1 / 20 := by
  refine ⟨stepLoopCount_le ff w 10 0 (stepInit ff coords), ?_⟩
  simp [stepInit, mkRat_twentieth]

/-- Claim C9: `energy()` returns the bound force field's energy at the
session's current coordinate set, and zero whenever no force field is bound
(which is the session's state before any successful force-field binding and
after an unregistered-name failure). -/
theorem claim_C9 (s : Session) :
    (s.forceField = none → energy s = RVal.val 0) ∧
    (∀ ff, s.forceField = some ff → energy s = ff.energy s.coordinates) := by
  constructor
  · intro h
    simp [energy, h]
  · intro ff h
    simp [energy, h]

theorem claim_C9_witness :
    (mkSession (some molZero)).forceField = none ∧
    energy (mkSession (some molZero)) = RVal.val 0 ∧
    sDone.forceField = some ffZero ∧
    energy sDone = ffZero.energy sDone.coordinates :=
  ⟨rfl, (claim_C9 (mkSession (some molZero))).1 rfl, rfl,
   (claim_C9 sDone).2 ffZero rfl⟩

/-- Claim C10: `setForceField(name)` returns true for every name — including
unregistered ones — and only records the name on the session; the
unregistered-name check happens only at the next `setup()`, which then fails
with the unsupported-force-field error. -/
theorem claim_C10 (s : Session) (name : String) :
    setForceField s name = ({ s with forceFieldName := name }, true) ∧
    (∀ reg m, (setForceField s name).1.molecule = some m →
       reg.create name = none →
       (setup reg (setForceField s name).1).2 = false ∧
       (setup reg (setForceField s name).1).1.errorString = unsupportedMsg name) := by
  refine ⟨rfl, ?_⟩
  intro reg m hm hc
  have hname : (setForceField s name).1.forceFieldName = name := rfl
  rw [setup_unregistered reg (setForceField s name).1 m hm (by rw [hname]; exact hc)]
  exact ⟨rfl, by simp [hname]⟩

theorem claim_C10_witness :
    setForceField sDone "nonexistent" =
      ({ sDone with forceFieldName := "nonexistent" }, true) ∧
    (setup regEmpty (setForceField sDone "nonexistent").1).2 = false ∧
    (setup regEmpty (setForceField sDone "nonexistent").1).1.errorString =
      unsupportedMsg "nonexistent" := by
  have h := claim_C10 sDone "nonexistent"
  have h2 := h.2 regEmpty molZero rfl rfl
  exact ⟨h.1, h2.1, h2.2⟩

/-- Claim C1: whenever `optimize()` returns true, the coordinates it has just
written back onto the molecule satisfy `rmsGradient < 0.1` — the molecule's
new positions are exactly the write-back of the final session coordinates,
whose rms gradient is below the threshold — and `step()` reports convergence
exactly when the rms gradient at the session coordinates after the inner loop
is below 0.1. -/
theorem claim_C1 (reg : Registry) (W : ℕ → ℕ → ℕ → Vec3) (fuel : ℕ)
    (s s₁ : Session) (h : optimize reg W fuel s = some (s₁, true)) :
    (∃ ff, s₁.forceField = some ff ∧ ff.rmsg s₁.coordinates < 1 / 10) ∧
    (∃ m₀, s.molecule = some m₀ ∧
       s₁.molecule = some (writeback s₁.coordinates m₀.positions.length)) ∧
    (∀ (ffx : FF) (wx : ℕ → ℕ → Vec3) (cx : Coords),
       (stepCore ffx wx cx).2 = true ↔ ffx.rmsg (stepCore ffx wx cx).1 < 1 / 10) := by
  obtain ⟨hok, s₂, hloop, hwc⟩ := optimize_true_elim reg W fuel s s₁ h
  obtain ⟨m, make, hm, hc, hmk, hsetup⟩ := setup_ok_cases reg s hok
  have hpres := optimizeLoop_preserves W fuel 0 ((setup reg s).1) s₂ hloop
  obtain ⟨m', ff, hm2, hf2, hr2⟩ := optimizeLoop_rmsg W fuel 0 _ s₂ hloop
  have hmol2 : s₂.molecule = some m := by
    rw [hpres.1, hsetup]
    simpa using hm
  have hm'm : m' = m := by
    rw [hmol2] at hm2
    exact (Option.some.inj hm2).symm
  have hs₁ :
      s₁ = { s₂ with molecule := some (writeback s₂.coordinates m'.positions.length) } := by
    rw [hwc, writeCoordinates_spec s₂ m' ff hm2 hf2]
  refine ⟨⟨ff, ?_, ?_⟩, ⟨m, hm, ?_⟩, ?_⟩
  · rw [hs₁]
    exact hf2
  · rw [hs₁]
    exact hr2
  · rw [hs₁, hm'm]
  · intro ffx wx cx
    simp [stepCore, mkRat_tenth]

theorem claim_C1_witness :
    (∃ ff, sDone.forceField = some ff ∧ ff.rmsg sDone.coordinates < 1 / 10) ∧
    (∃ m₀, (mkSession (some molZero)).molecule = some m₀ ∧
       sDone.molecule = some (writeback sDone.coordinates m₀.positions.length)) ∧
    (∀ (ffx : FF) (wx : ℕ → ℕ → Vec3) (cx : Coords),
       (stepCore ffx wx cx).2 = true ↔ ffx.rmsg (stepCore ffx wx cx).1 < 1 / 10) :=
  claim_C1 (regOf ffZero) WOne 1 (mkSession (some molZero)) sDone rfl

theorem unsupportedMsg_ne_empty (name : String) : unsupportedMsg name ≠ "" := by
  intro h
  have h2 := congrArg String.length h
  rw [unsupportedMsg, String.length_append, String.length_append] at h2
  simp at h2
  exact absurd h2.2 (by decide)

/-- Claim C6: `setup()` returns false and records a non-empty error string in
each of the three failure cases — no molecule bound, unregistered force-field
name, force field's own setup failing — and any failed `setup()` leaves the
molecule and force-field name untouched, so a retried `setup()` under
conditions that satisfy all three checks succeeds. -/
theorem claim_C6 :
    (∀ (reg : Registry) (s : Session), s.molecule = none →
       (setup reg s).2 = false ∧ (setup reg s).1.errorString ≠ "") ∧
    (∀ (reg : Registry) (s : Session) (m : Molecule), s.molecule = some m →
       reg.create s.forceFieldName = none →
       (setup reg s).2 = false ∧ (setup reg s).1.errorString ≠ "") ∧
    (∀ (reg : Registry) (s : Session) (m : Molecule)
       (make : Molecule → FF × Bool), s.molecule = some m →
       reg.create s.forceFieldName = some make → (make m).2 = false →
       (setup reg s).2 = false ∧ (setup reg s).1.errorString ≠ "") ∧
    (∀ (reg : Registry) (s : Session), (setup reg s).2 = false →
       (setup reg s).1.molecule = s.molecule ∧
       (setup reg s).1.forceFieldName = s.forceFieldName ∧
       (∀ (reg' : Registry) (m : Molecule) (make : Molecule → FF × Bool),
          s.molecule = some m → reg'.create s.forceFieldName = some make →
          (make m).2 = true → (setup reg' ((setup reg s).1)).2 = true)) := by
  refine ⟨?_, ?_, ?_, ?_⟩
  · intro reg s hm
    rw [setup_no_molecule reg s hm]
    exact ⟨rfl, (by decide : noMoleculeMsg ≠ "")⟩
  · intro reg s m hm hc
    rw [setup_unregistered reg s m hm hc]
    exact ⟨rfl, unsupportedMsg_ne_empty s.forceFieldName⟩
  · intro reg s m make hm hc hfail
    rw [setup_ff_failed reg s m make hm hc hfail]
    exact ⟨rfl, (by decide : ffSetupFailedMsg ≠ "")⟩
  · intro reg s hfalse
    have hpres := setup_preserves reg s
    refine ⟨hpres.1, hpres.2, ?_⟩
    intro reg' m make hm hc hok
    have hm1 : (setup reg s).1.molecule = some m := by rw [hpres.1]; exact hm
    have hc1 : reg'.create ((setup reg s).1.forceFieldName) = some make := by
      rw [hpres.2]; exact hc
    rw [setup_success reg' ((setup reg s).1) m make hm1 hc1 hok]

theorem claim_C6_witness :
    ((setup regEmpty (mkSession none)).2 = false ∧
     (setup regEmpty (mkSession none)).1.errorString ≠ "") ∧
    ((setup regEmpty (mkSession (some molZero))).2 = false ∧
     (setup regEmpty (mkSession (some molZero))).1.errorString ≠ "") ∧
    ((setup regFail (mkSession (some molZero))).2 = false ∧
     (setup regFail (mkSession (some molZero))).1.errorString ≠ "") ∧
    (setup (regOf ffZero)
       ((setup regEmpty (mkSession (some molZero))).1)).2 = true := by
  have h := claim_C6
  refine ⟨h.1 regEmpty (mkSession none) rfl, ?_, ?_, ?_⟩
  · exact h.2.1 regEmpty (mkSession (some molZero)) molZero rfl rfl
  · exact h.2.2.1 regFail (mkSession (some molZero)) molZero
      (fun _ => (ffZero, false)) rfl rfl rfl
  · exact (h.2.2.2 regEmpty (mkSession (some molZero)) rfl).2.2
      (regOf ffZero) molZero (fun _ => (ffZero, true)) rfl rfl rfl

/-- Claim C7: if `setup()` fails, `optimize()` returns false immediately and
the molecule is untouched; if `optimize()` succeeds, the stepping loop never
touches the molecule (it operates on the session's private coordinate set
only) and the molecule is written exactly once at the end, from the final
session coordinates. -/
theorem claim_C7 :
    (∀ (reg : Registry) (W : ℕ → ℕ → ℕ → Vec3) (fuel : ℕ) (s : Session),
       (setup reg s).2 = false →
       optimize reg W fuel s = some ((setup reg s).1, false) ∧
       (setup reg s).1.molecule = s.molecule) ∧
    (∀ (reg : Registry) (W : ℕ → ℕ → ℕ → Vec3) (fuel : ℕ) (s s₁ : Session),
       optimize reg W fuel s = some (s₁, true) →
       ∃ s₂, optimizeLoop W 0 fuel (setup reg s).1 = some s₂ ∧
         s₂.molecule = s.molecule ∧ s₁ = writeCoordinates s₂ ∧
         ∃ m, s.molecule = some m ∧
           s₁.molecule = some (writeback s₂.coordinates m.positions.length)) := by
  constructor
  · intro reg W fuel s hfail
    exact ⟨optimize_of_setup_false reg W fuel s hfail, (setup_preserves reg s).1⟩
  · intro reg W fuel s s₁ h
    obtain ⟨hok, s₂, hloop, hwc⟩ := optimize_true_elim reg W fuel s s₁ h
    obtain ⟨m, make, hm, hc, hmk, hsetup⟩ := setup_ok_cases reg s hok
    have hpres := optimizeLoop_preserves W fuel 0 ((setup reg s).1) s₂ hloop
    have hmol2 : s₂.molecule = s.molecule := by
      rw [hpres.1, hsetup]
    obtain ⟨m', ff, hm2, hf2, _⟩ := optimizeLoop_rmsg W fuel 0 _ s₂ hloop
    refine ⟨s₂, hloop, hmol2, hwc, m, hm, ?_⟩
    have hm'm : m' = m := by
      rw [hmol2, hm] at hm2
      exact (Option.some.inj hm2).symm
    rw [hwc, writeCoordinates_spec s₂ m' ff hm2 hf2, hm'm]

theorem claim_C7_witness :
    (optimize regEmpty WOne 1 (mkSession (some molZero)) =
       some ((setup regEmpty (mkSession (some molZero))).1, false) ∧
     (setup regEmpty (mkSession (some molZero))).1.molecule =
       (mkSession (some molZero)).molecule) ∧
    (∃ s₂, optimizeLoop WOne 0 1 (setup (regOf ffZero) (mkSession (some molZero))).1 =
         some s₂ ∧
       s₂.molecule = (mkSession (some molZero)).molecule ∧
       sDone = writeCoordinates s₂ ∧
       ∃ m, (mkSession (some molZero)).molecule = some m ∧
         sDone.molecule = some (writeback s₂.coordinates m.positions.length)) :=
  ⟨claim_C7.1 regEmpty WOne 1 (mkSession (some molZero)) rfl,
   claim_C7.2 (regOf ffZero) WOne 1 (mkSession (some molZero)) sDone rfl⟩

/-- First `optimize()` run of the C8 scenario: one atom at the origin,
force field `ffDrift` (energy = x, constant gradient 0.09, rms gradient 0.09,
i.e. already below the 0.1 threshold everywhere). -/
def run8a : Option (Session × Bool) :=
  optimize (regOf ffDrift) WOne 5 (mkSession (some molZero))

/-- Second `optimize()` run of the C8 scenario, on the session produced by
the first (hence on the already-converged molecule). -/
def run8b : Option (Session × Bool) :=
  match run8a with
  | some p => optimize (regOf ffDrift) WOne 5 p.1
  | none => none

/-- Observable projection of an optimize result: the molecule's positions and
the success flag. -/
def resultPositions (r : Option (Session × Bool)) :
    Option (Option (List Vec3) × Bool) :=
  r.map (fun p => (p.1.molecule.map Molecule.positions, p.2))

/-- Counterexample to claim C8 as stated: with the force field `ffDrift`
(rms gradient 0.09 < 0.1 everywhere, so every `step()` reports convergence,
but the gradient is nonzero and the energy decreases along the moves), the
first `optimize()` converges and writes x = -0.5895; the second `optimize()`
on this already-converged molecule also returns true but moves the atom's
x-coordinate by a further 0.5895 — not less than the convergence tolerance
0.1 (nor any tolerance named by the spec). -/
theorem claim_C8_counterexample :
    resultPositions run8a = some (some [(mkRat (-1179) 2000, 0, 0)], true) ∧
    resultPositions run8b = some (some [(mkRat (-1179) 1000, 0, 0)], true) ∧
    ¬ (qabs (qsub (mkRat (-1179) 1000) (mkRat (-1179) 2000)) < mkRat 1 10) ∧
    1 / 10 ≤ |(mkRat (-1179) 1000 : ℚ) - mkRat (-1179) 2000| := by
  refine ⟨by decide, by decide, by decide, ?_⟩
  rw [show (mkRat (-1179) 1000 : ℚ) = -(1179 / 1000) by
        rw [Rat.mkRat_eq_div]; norm_num,
      show (mkRat (-1179) 2000 : ℚ) = -(1179 / 2000) by
        rw [Rat.mkRat_eq_div]; norm_num,
      show (-(1179 / 1000) : ℚ) - -(1179 / 2000) = -(1179 / 2000) by norm_num,
      abs_neg, abs_of_nonneg (by norm_num : (0 : ℚ) ≤ 1179 / 2000)]
  norm_num

/-- Claim C8, amended: a second `optimize()` on an already-converged molecule
performs a bounded number of steps (a single step: fuel 1 suffices) and
leaves every atom coordinate exactly unchanged, provided the recreated force
field has zero gradient, a non-NaN energy, and rms gradient below the 0.1
threshold at the converged coordinates; without a zero gradient the second
run can move coordinates beyond the tolerance. -/
theorem claim_C8 (reg : Registry) (W W' : ℕ → ℕ → ℕ → Vec3) (fuel : ℕ)
    (s s₁ : Session) (h1 : optimize reg W fuel s = some (s₁, true))
    (m₁ : Molecule) (hm : s₁.molecule = some m₁)
    (make : Molecule → FF × Bool) (hc : reg.create s₁.forceFieldName = some make)
    (ff₂ : FF) (hmk : make m₁ = (ff₂, true))
    (hg : ∀ j, (ff₂.gradient m₁.positions).getD j vzero = vzero)
    (e : ℚ) (he : ff₂.energy m₁.positions = RVal.val e)
    (hr : ff₂.rmsg m₁.positions < 1 / 10) :
    ∃ s₂, optimize reg W' 1 s₁ = some (s₂, true) ∧
      ∃ m₂, s₂.molecule = some m₂ ∧ m₂.positions = m₁.positions := by
  have hok : (make m₁).2 = true := by rw [hmk]
  have hsetup2 := setup_success reg s₁ m₁ make hm hc hok
  rw [show (make m₁).1 = ff₂ by rw [hmk]] at hsetup2
  have hm' : ({ s₁ with forceField := some ff₂, coordinates := m₁.positions } : Session).molecule = some m₁ := hm
  have hcore : stepCore ff₂ (W' 0) m₁.positions = (m₁.positions, true) := by
    unfold stepCore stepInit
    rw [he, stepLoop_flat ff₂ (W' 0) m₁.positions (ff₂.gradient m₁.positions)
        e hg he 10 0 (mkRat 1 20)]
    simp only [Prod.mk.injEq, decide_eq_true_eq, mkRat_tenth]
    exact ⟨trivial, hr⟩
  have hstep : step { s₁ with forceField := some ff₂, coordinates := m₁.positions } (W' 0) = ({ s₁ with forceField := some ff₂, coordinates := m₁.positions }, true) := by
    simp only [step, hm]
    rw [hcore]
  have hloop : optimizeLoop W' 0 1 { s₁ with forceField := some ff₂, coordinates := m₁.positions } = some { s₁ with forceField := some ff₂, coordinates := m₁.positions } := by
    simp only [optimizeLoop, hstep]
    rw [if_pos trivial]
  refine ⟨writeCoordinates { s₁ with forceField := some ff₂, coordinates := m₁.positions }, ?_, ?_⟩
  · simp only [optimize, hsetup2, hloop]
    rw [if_pos trivial]
  · refine ⟨writeback m₁.positions m₁.positions.length, ?_, ?_⟩
    · rw [writeCoordinates_spec _ m₁ ff₂ hm' rfl]
    · unfold writeback
      simp only []
      exact range_map_getD vzero m₁.positions

theorem claim_C8_witness :
    ∃ s₂, optimize (regOf ffZero) WOne 1 sDone = some (s₂, true) ∧
      ∃ m₂, s₂.molecule = some m₂ ∧ m₂.positions = molZero.positions :=
  claim_C8 (regOf ffZero) WOne WOne 1 (mkSession (some molZero)) sDone rfl
    molZero rfl (fun _ => (ffZero, true)) rfl ffZero rfl
    (fun j => by cases j <;> rfl) 0 rfl (show (0 : ℚ) < 1 / 10 by norm_num)

end Chemkit
